import Mathlib

/-!
Verification of the inference orchestration core of the agent dashboard:
the stream decoder, request serializer, event bus, credential validation,
task dependency gating and the local-storage CRUD store.  JavaScript
strings are modelled as lists of characters.
-/

set_option maxRecDepth 4000

/-- JavaScript strings are modelled as lists of characters. -/
abbrev Str := List Char

/-- Converts a Lean string literal into the character-list model. -/
def str (s : String) : Str := s.data

/-- The left-brace character, written numerically. -/
def lbrace : Char := Char.ofNat 123

/-- The right-brace character, written numerically. -/
def rbrace : Char := Char.ofNat 125

/-- The double-quote character. -/
def dquote : Char := Char.ofNat 34

/-- The backslash character. -/
def bslash : Char := Char.ofNat 92

/-- Whitespace characters recognised by trimming and by the JSON grammar
(space, tab, newline, carriage return). -/
def isWS (c : Char) : Bool := c = ' ' || c = '\t' || c = '\n' || c = '\r'

/-- Model of JavaScript String.prototype.trim, removing leading and
trailing whitespace. -/
def trim (s : Str) : Str :=
  ((s.dropWhile isWS).reverse.dropWhile isWS).reverse

/-- Model of String.prototype.split with a single-character separator:
splitting never yields an empty list of parts. -/
def splitOnChar (sep : Char) : Str → List Str
  | [] => [[]]
  | c :: cs =>
    match splitOnChar sep cs with
    | [] => [[]]
    | l :: ls => if c = sep then [] :: l :: ls else (c :: l) :: ls

/-! ## A model of the host JSON parser

The stream decoder calls the host runtime's JSON.parse on each data line.
The model below implements the JSON grammar (null, booleans, numbers,
strings with escapes, arrays, objects) as a fuelled recursive-descent
parser returning none where JSON.parse would throw.  Numeric values are
not needed by any claim, so a number parses to a placeholder constructor
without interpreting its digits, and the leading-zero restriction of the
JSON number grammar is not enforced. -/

inductive Json where
  | null : Json
  | bool (b : Bool) : Json
  | num : Json
  | string (s : Str) : Json
  | arr (elems : List Json) : Json
  | obj (fields : List (Str × Json)) : Json

/-- Skips JSON whitespace. -/
def skipWS (s : Str) : Str := s.dropWhile isWS

/-- Reads one hexadecimal digit. -/
def hexVal (c : Char) : Option Nat :=
  if '0' ≤ c ∧ c ≤ '9' then some (c.toNat - '0'.toNat)
  else if 'a' ≤ c ∧ c ≤ 'f' then some (c.toNat - 'a'.toNat + 10)
  else if 'A' ≤ c ∧ c ≤ 'F' then some (c.toNat - 'A'.toNat + 10)
  else none

/-- Parses the body of a JSON string after the opening quote, returning
the decoded characters and the rest of the input after the closing
quote; none models a JSON.parse syntax error. -/
def parseStringBody : Str → Option (Str × Str)
  | [] => none
  | c :: cs =>
    if c = dquote then some ([], cs)
    else if c = bslash then
      match cs with
      | [] => none
      | e :: rest =>
        if e = 'u' then
          match rest with
          | h1 :: h2 :: h3 :: h4 :: rest' =>
            match hexVal h1, hexVal h2, hexVal h3, hexVal h4 with
            | some a, some b, some c', some d =>
              match parseStringBody rest' with
              | some (tail, rem) =>
                some (Char.ofNat (((a * 16 + b) * 16 + c') * 16 + d) :: tail, rem)
              | none => none
            | _, _, _, _ => none
          | _ => none
        else
          match
            (if e = dquote then some dquote
             else if e = bslash then some bslash
             else if e = '/' then some '/'
             else if e = 'n' then some '\n'
             else if e = 't' then some '\t'
             else if e = 'r' then some '\r'
             else if e = 'b' then some (Char.ofNat 8)
             else if e = 'f' then some (Char.ofNat 12)
             else none) with
          | some decoded =>
            match parseStringBody rest with
            | some (tail, rem) => some (decoded :: tail, rem)
            | none => none
          | none => none
    else if c.toNat < 32 then none
    else
      match parseStringBody cs with
      | some (tail, rem) => some (c :: tail, rem)
      | none => none

/-- Checks for a decimal digit. -/
def isDigit (c : Char) : Bool := '0' ≤ c && c ≤ '9'

/-- Parses the digits and exponent part of a JSON number after an
optional leading minus sign.  The numeric value is irrelevant to every
claim, so only the shape is checked. -/
def parseNumberTail (s : Str) : Option Str :=
  let intPart := s.takeWhile isDigit
  if intPart = [] then none
  else
    let s1 := s.dropWhile isDigit
    let s2 :=
      match s1 with
      | '.' :: rest =>
        if (rest.takeWhile isDigit) = [] then none
        else some (rest.dropWhile isDigit)
      | _ => some s1
    match s2 with
    | none => none
    | some s3 =>
      match s3 with
      | e :: rest =>
        if e = 'e' ∨ e = 'E' then
          let rest' := match rest with
                       | '+' :: r => r
                       | '-' :: r => r
                       | r => r
          if (rest'.takeWhile isDigit) = [] then none
          else some (rest'.dropWhile isDigit)
        else some s3
      | [] => some s3

mutual

/-- Parses one JSON value, returning it with the remaining input. -/
def parseValue : Nat → Str → Option (Json × Str)
  | 0, _ => none
  | Nat.succ fuel, s =>
    match skipWS s with
    | [] => none
    | c :: cs =>
      if c = dquote then
        match parseStringBody cs with
        | some (body, rest) => some (Json.string body, rest)
        | none => none
      else if c = lbrace then
        parseMembers fuel (skipWS cs) []
      else if c = '[' then
        parseElems fuel (skipWS cs) []
      else if c = 't' then
        match cs with
        | 'r' :: 'u' :: 'e' :: rest => some (Json.bool true, rest)
        | _ => none
      else if c = 'f' then
        match cs with
        | 'a' :: 'l' :: 's' :: 'e' :: rest => some (Json.bool false, rest)
        | _ => none
      else if c = 'n' then
        match cs with
        | 'u' :: 'l' :: 'l' :: rest => some (Json.null, rest)
        | _ => none
      else if c = '-' then
        match parseNumberTail cs with
        | some rest => some (Json.num, rest)
        | none => none
      else if isDigit c then
        match parseNumberTail (c :: cs) with
        | some rest => some (Json.num, rest)
        | none => none
      else none

/-- Parses array elements after the opening bracket (whitespace already
skipped), with the elements read so far accumulated in reverse. -/
def parseElems : Nat → Str → List Json → Option (Json × Str)
  | 0, _, _ => none
  | Nat.succ fuel, s, acc =>
    match s, acc with
    | ']' :: rest, [] => some (Json.arr [], rest)
    | _, _ =>
      match parseValue fuel s with
      | none => none
      | some (v, rest) =>
        match skipWS rest with
        | ',' :: rest' => parseElems fuel (skipWS rest') (v :: acc)
        | ']' :: rest' => some (Json.arr (v :: acc).reverse, rest')
        | _ => none

/-- Parses object members after the opening brace (whitespace already
skipped), with the members read so far accumulated in reverse. -/
def parseMembers : Nat → Str → List (Str × Json) → Option (Json × Str)
  | 0, _, _ => none
  | Nat.succ fuel, s, acc =>
    match s, acc with
    | c :: rest, [] =>
      if c = rbrace then some (Json.obj [], rest)
      else parseOneMember fuel (c :: rest) []
    | _, _ => parseOneMember fuel s acc

/-- Parses one key-value member and the following separator. -/
def parseOneMember : Nat → Str → List (Str × Json) → Option (Json × Str)
  | 0, _, _ => none
  | Nat.succ fuel, s, acc =>
    match s with
    | c :: cs =>
      if c = dquote then
        match parseStringBody cs with
        | none => none
        | some (key, rest) =>
          match skipWS rest with
          | ':' :: rest' =>
            match parseValue fuel rest' with
            | none => none
            | some (v, rest'') =>
              match skipWS rest'' with
              | ',' :: rest3 => parseMembers fuel (skipWS rest3) ((key, v) :: acc)
              | d :: rest3 =>
                if d = rbrace then some (Json.obj ((key, v) :: acc).reverse, rest3)
                else none
              | [] => none
          | _ => none
      else none
    | [] => none

end

/-- Model of JSON.parse: the whole input must be one JSON value,
possibly surrounded by whitespace. -/
def jsonParse (s : Str) : Option Json :=
  match parseValue (2 * s.length + 2) s with
  | some (v, rest) => if skipWS rest = [] then some v else none
  | none => none

/-! ## Stream decoder (GroqAPIClient.processStreamResponse)

The decoder consumes the response body as a list of text chunks.  The
source decodes each byte chunk with a streaming UTF-8 decoder; the model
starts from the decoded text.  Both callbacks (onChunk and onThinking)
are modelled as present, as they are at the call site in handleRunTask,
and their invocations are recorded in the state. -/

/-- Looks up a field of a JSON object. -/
def objGet (fields : List (Str × Json)) (key : Str) : Option Json :=
  (fields.find? (fun p => p.1 == key)).map Prod.snd

/-- Model of the access path json.choices[0]?.delta?.content followed by
the `|| ""` default: any failure along the path (including the TypeError
a missing choices field raises inside the same try block) and any
non-string content yield the empty contribution. -/
def extractContent (j : Json) : Str :=
  match j with
  | Json.obj fields =>
    match objGet fields (str "choices") with
    | some (Json.arr (c0 :: _)) =>
      match c0 with
      | Json.obj cf =>
        match objGet cf (str "delta") with
        | some (Json.obj df) =>
          match objGet df (str "content") with
          | some (Json.string s) => s
          | _ => []
        | _ => []
      | _ => []
    | _ => []
  | _ => []

/-- State of one processStreamResponse call: the accumulated text, the
firstChunk flag, the recorded onThinking and onChunk invocations, and
whether the terminal data frame made the function return. -/
structure DecodeState where
  fullContent : Str
  firstChunk : Bool
  thinkingCalls : List (Option Str)
  chunkCalls : List Str
  finished : Bool
deriving DecidableEq

/-- Initial decoder state (fullContent = "", firstChunk = true). -/
def initDecode : DecodeState :=
  { fullContent := [], firstChunk := true, thinkingCalls := [], chunkCalls := [], finished := false }

/-- Processing of one complete line from the loop body: the terminal
frame returns immediately; a data-prefixed line is JSON-parsed, with
parse failures silently skipped; a non-empty content delta fires
onThinking null on the first delta, is appended to fullContent, and
fires onChunk with the new total.  Lines reached after the terminal
frame are never processed, which the finished guard encodes. -/
def processLine (st : DecodeState) (line : Str) : DecodeState :=
  if st.finished then st
  else if line = str "data: [DONE]" then { st with finished := true }
  else if (str "data: ").isPrefixOf line then
    match jsonParse (line.drop 6) with
    | none => st
    | some j =>
      let content := extractContent j
      if content = [] then st
      else
        let st1 :=
          if st.firstChunk then
            { st with thinkingCalls := st.thinkingCalls ++ [none], firstChunk := false }
          else st
        let newFull := st1.fullContent ++ content
        { st1 with fullContent := newFull, chunkCalls := st1.chunkCalls ++ [newFull] }
  else st

/-- Processing of one read chunk: the chunk is split on newline and the
whitespace-only pieces are filtered out; every remaining piece is
handled as a complete line.  There is no pending buffer carrying a
trailing partial line to the next read. -/
def processChunk (st : DecodeState) (chunk : Str) : DecodeState :=
  if st.finished then st
  else ((splitOnChar '\n' chunk).filter (fun l => !(trim l).isEmpty)).foldl processLine st

/-- The whole read loop over the chunks of the response body. -/
def processStream (chunks : List Str) : DecodeState :=
  chunks.foldl processChunk initDecode

/-- The text processStreamResponse resolves with. -/
def decodeResult (chunks : List Str) : Str :=
  (processStream chunks).fullContent

/-! ## The line-buffered decoder described by the specification -/

/-- State of the buffered decoder the specification describes: the
shared line-level state plus a pending buffer holding the last
(possibly incomplete) line. -/
structure BufState where
  core : DecodeState
  buffer : Str
deriving DecidableEq

/-- Modelled from the spec: decode each chunk as text, append to a
pending buffer, split on newline, keep the last (possibly incomplete)
line in the buffer for the next chunk, and process each complete line
exactly as the source's line handler does. -/
def bufProcessChunk (st : BufState) (chunk : Str) : BufState :=
  if st.core.finished then st
  else
    let parts := splitOnChar '\n' (st.buffer ++ chunk)
    { core := parts.dropLast.foldl processLine st.core,
      buffer := parts.getLastD [] }

/-- Modelled from the spec: the buffered read loop; on exhaustion the
accumulated text is returned as-is. -/
def bufProcessStream (chunks : List Str) : BufState :=
  chunks.foldl bufProcessChunk { core := initDecode, buffer := [] }

/-- Modelled from the spec: the text the buffered decoder returns. -/
def bufDecodeResult (chunks : List Str) : Str :=
  (bufProcessStream chunks).core.fullContent

/-! ## Error classification and credential validation (GroqAPIClient) -/

/-- The distinct failure kinds of the orchestrator, one constructor per
throw site of the source (each throw site carries a fixed message
string, except the generic case which carries the provider message). -/
inductive GroqError where
  | keyRequired
  | invalidKeyFormat
  | rateLimited
  | unauthorizedKey
  | serviceUnavailable
  | providerErr (msg : Str)
  | noResponseBody
deriving DecidableEq

/-- GroqAPIClient.validateApiKey: an empty (or whitespace-only) key is
required-missing; a key not starting with the literal prefix or shorter
than 40 characters has an invalid format. -/
def validateApiKey (apiKey : Str) : Except GroqError Unit :=
  if trim apiKey = [] then Except.error GroqError.keyRequired
  else if (str "gsk_").isPrefixOf apiKey = false ∨ apiKey.length < 40 then
    Except.error GroqError.invalidKeyFormat
  else Except.ok ()

deriving instance DecidableEq for Except

/-- The HTTP response of the single fetch, as the orchestrator observes
it: the status code, the default status line, the provider error message
when the error body parses with one, and the body as text chunks (none
models a null body). -/
structure HttpResponse where
  status : Nat
  statusLine : Str
  errorMessage : Option Str
  body : Option (List Str)

/-- GroqAPIClient.makeRequest and handleApiError: a non-success status
is classified by code as rate-limited (429), unauthorized (401), server
unavailable (at least 500), or generic with the provider-supplied
message (falling back to the default status line). -/
def classifyResponse (r : HttpResponse) : Except GroqError Unit :=
  if 200 ≤ r.status ∧ r.status < 300 then Except.ok ()
  else if r.status = 429 then Except.error GroqError.rateLimited
  else if r.status = 401 then Except.error GroqError.unauthorizedKey
  else if 500 ≤ r.status then Except.error GroqError.serviceUnavailable
  else Except.error (GroqError.providerErr (r.errorMessage.getD r.statusLine))

/-- GroqAPIClient.executeRequest: validates the key, then performs the
single network call, classifies the response, and decodes the stream.
The second component counts the network calls performed.  The request
body construction (model table, token limits, json mode) does not
affect any claim and is not modelled. -/
def executeRequest (resp : HttpResponse) (apiKey : Str) : Except GroqError Str × Nat :=
  match validateApiKey apiKey with
  | Except.error e => (Except.error e, 0)
  | Except.ok _ =>
    match classifyResponse resp with
    | Except.error e => (Except.error e, 1)
    | Except.ok _ =>
      match resp.body with
      | none => (Except.error GroqError.noResponseBody, 1)
      | some chunks => (Except.ok (decodeResult chunks), 1)

/-- The observable effect of one GroqAPIClient.inference call: how many
closures it pushed onto the request queue, how many network calls were
made, and the settlement of the returned promise. -/
structure InferenceRun where
  unitsEnqueued : Nat
  netCalls : Nat
  result : Except GroqError Str
deriving DecidableEq

/-- GroqAPIClient.inference: a closure wrapping executeRequest in
try/catch is pushed onto the request queue unconditionally (before any
validation runs), processQueue is started, and the promise settles with
the closure's outcome once the queue dispatches it. -/
def inference (resp : HttpResponse) (apiKey : Str) : InferenceRun :=
  let r := executeRequest resp apiKey
  { unitsEnqueued := 1, netCalls := r.2, result := r.1 }

/-! ## Request serializer (GroqAPIClient.processQueue)

The drain loop is modelled operationally with explicit time: Date.now()
is the running clock, lastRequestTime is updated after each unit
completes, and awaiting a unit advances the clock by the unit's
duration.  The isProcessing flag of the source guarantees a single
drain loop on the single-threaded runtime, so one loop drains the whole
queue; submissions are the queue contents in submission order. -/

/-- The outcome a queued unit's body produces (the settlement that
inference's wrapper applies to the caller's promise). -/
inductive UnitResult where
  | ok (v : Str)
  | err (e : GroqError)
deriving DecidableEq

/-- A unit of work submitted through inference: an identifier for
tracking submission order, the execution duration, and the body's
outcome. -/
structure QUnit where
  uid : Nat
  dur : Nat
  body : UnitResult
deriving DecidableEq

/-- An entry of the requestQueue as the drain loop sees it: running it
either returns normally (carrying the promise settlement it performed)
or throws. -/
structure QueueEntry where
  uid : Nat
  dur : Nat
  run : Except Str UnitResult

/-- The closure inference pushes for a unit: it runs the body inside
try/catch and settles only that unit's promise, so the closure itself
never throws. -/
def entryOf (u : QUnit) : QueueEntry :=
  { uid := u.uid, dur := u.dur, run := Except.ok u.body }

/-- One dispatch performed by the drain loop: which unit, when its
execution began, when it completed, and how its promise settled. -/
structure DispatchRec where
  uid : Nat
  dispatchAt : Nat
  completeAt : Nat
  outcome : UnitResult
deriving DecidableEq

/-- The configured minimum interval between requests, in milliseconds. -/
def RATE_LIMIT_DELAY : Nat := 100

/-- The drain loop of processQueue: while the queue is non-empty, wait
until at least RATE_LIMIT_DELAY has elapsed since lastRequestTime, run
the head unit, then record the completion time as lastRequestTime.  A
unit that throws would abandon the loop with isProcessing stuck at true
(the stalled flag); the closures inference pushes never do. -/
def drainEntries (now last : Nat) : List QueueEntry → List DispatchRec × Bool
  | [] => ([], false)
  | e :: es =>
    let start := if now - last < RATE_LIMIT_DELAY then last + RATE_LIMIT_DELAY else now
    let fin := start + e.dur
    match e.run with
    | Except.error _ => ([], true)
    | Except.ok r =>
      let rest := drainEntries fin fin es
      ({ uid := e.uid, dispatchAt := start, completeAt := fin, outcome := r } :: rest.1, rest.2)

/-- The dispatches the drain loop performs for units submitted through
inference. -/
def drainUnits (now last : Nat) (us : List QUnit) : List DispatchRec :=
  (drainEntries now last (us.map entryOf)).1

/-- Consecutive dispatches do not overlap and keep the configured
minimum interval between the completion of one and the dispatch of the
next. -/
def properlySpaced : List DispatchRec → Prop
  | [] => True
  | [_] => True
  | r1 :: r2 :: rs =>
    (r1.completeAt ≤ r2.dispatchAt ∧ r1.completeAt + RATE_LIMIT_DELAY ≤ r2.dispatchAt) ∧
    properlySpaced (r2 :: rs)

/-! ## Event bus (StreamingService) -/

/-- The event type tags of the bus. -/
inductive EventType where
  | thinking
  | output
  | function_call
  | error
  | system
  | agent_status
deriving DecidableEq

/-- A stream event.  The source stamps each emitted event with a unique
string id built from Date.now() and Math.random() and a Date timestamp;
both are host primitives and are modelled as numbers supplied with the
event. -/
structure StreamEvent where
  id : Nat
  etype : EventType
  content : Str
  timestamp : Nat
  agentId : Option Str
  taskId : Option Str
deriving DecidableEq

/-- The bounded history capacity (maxEvents). -/
def maxEvents : Nat := 100

/-- The event history of the bus. -/
structure BusState where
  events : List StreamEvent
deriving DecidableEq

/-- The history update of StreamingService.emit: push the event, then
if the length exceeds maxEvents keep only the last maxEvents entries. -/
def pushEvent (s : BusState) (e : StreamEvent) : BusState :=
  let evs := s.events ++ [e]
  { events := if maxEvents < evs.length then evs.drop (evs.length - maxEvents) else evs }

/-- StreamingService.getEvents returns a copy of the history; in this
pure model the copy is the value itself. -/
def getEvents (s : BusState) : List StreamEvent := s.events

/-- The notification step of StreamingService.emit:
listeners.forEach(listener => listener(streamEvent)) invokes the
listeners in subscription order; a listener that throws aborts the
iteration and the exception propagates out of emit.  The result is the
ordered list of listener identifiers actually invoked, with the escaped
exception if any. -/
def notifyAll (e : StreamEvent) :
    List (Nat × (StreamEvent → Except Str Unit)) → List Nat × Option Str
  | [] => ([], none)
  | (i, f) :: ls =>
    match f e with
    | Except.ok _ =>
      let rest := notifyAll e ls
      (i :: rest.1, rest.2)
    | Except.error msg => ([i], some msg)

/-! ## Task execution flow (handleRunTask) -/

/-- The task status state machine values. -/
inductive TaskStatus where
  | todo
  | in_progress
  | done
  | failed
deriving DecidableEq

/-- A task record, with the fields the execution flow reads. -/
structure TaskR where
  id : Str
  title : Str
  description : Str
  status : TaskStatus
  result : Str
  agent_id : Str
  parent_task_id : Option Str
deriving DecidableEq

/-- The context block handleRunTask prepends to the child's prompt when
the parent task is done. -/
def contextFromParent (parent : TaskR) (desc : Str) : Str :=
  str "[CONTEXT FROM PREVIOUS TASK \"" ++ parent.title ++ str "\"]:\n" ++
    parent.result ++ str "\n\n[CURRENT TASK INSTRUCTIONS]:\n" ++ desc

/-- The dependency failure of handleRunTask, carrying the parent title
used in the thrown message. -/
inductive RunError where
  | parentNotDone (parentTitle : Str)
deriving DecidableEq

/-- The user-content construction of handleRunTask: with a parent id
set, the parent is looked up in the task list; a found parent that is
not done throws the dependency error, a done parent contributes its
result as prepended context, and a missing parent leaves the plain
description. -/
def buildUserContent (tasks : List TaskR) (task : TaskR) : Except RunError Str :=
  match task.parent_task_id with
  | none => Except.ok task.description
  | some pid =>
    match tasks.find? (fun t => t.id == pid) with
    | none => Except.ok task.description
    | some parent =>
      if parent.status ≠ TaskStatus.done then
        Except.error (RunError.parentNotDone parent.title)
      else
        Except.ok (contextFromParent parent task.description)

/-- The observable outcome of the try block of handleRunTask up to the
inference submission: how many units reached the serializer queue, the
user message content when one did, and the dependency failure when the
block threw before submitting. -/
structure RunTaskOutcome where
  queuedUnits : Nat
  userContent : Option Str
  depFailure : Option Str
deriving DecidableEq

/-- handleRunTask after key validation and agent lookup succeed: the
dependency check throws before runGroqInference is reached, so a
dependency failure queues nothing; otherwise the built user content is
submitted as the single queued unit. -/
def handleRunTaskCore (tasks : List TaskR) (task : TaskR) : RunTaskOutcome :=
  match buildUserContent tasks task with
  | Except.error (RunError.parentNotDone t) =>
    { queuedUnits := 0, userContent := none, depFailure := some t }
  | Except.ok content =>
    { queuedUnits := 1, userContent := some content, depFailure := none }

/-! ## Local-storage CRUD store (Base44Client) -/

/-- An agent record. -/
structure AgentR where
  id : Str
  name : Str
  role : Str
  system_prompt : Str
  model : Str
deriving DecidableEq

/-- The in-memory maps of the client together with the two local
storage slots; each stored slot models the parsed content of its
serialized local storage key, none meaning the key is absent. -/
structure ClientState where
  agents : List (Str × AgentR)
  tasks : List (Str × TaskR)
  storedAgents : Option (List AgentR)
  storedTasks : Option (List TaskR)
deriving DecidableEq

/-- Map.set on an id-keyed association list: overwrite in place when
the key exists, append otherwise. -/
def setEntry {α : Type} (m : List (Str × α)) (k : Str) (v : α) : List (Str × α) :=
  if m.any (fun p => p.1 == k) then
    m.map (fun p => if p.1 == k then (k, v) else p)
  else m ++ [(k, v)]

/-- Base44Client.saveToStorage: each collection is written to its local
storage key only when it is non-empty; an empty collection leaves the
previously stored value untouched. -/
def saveToStorage (s : ClientState) : ClientState :=
  let agentsData := s.agents.map Prod.snd
  let tasksData := s.tasks.map Prod.snd
  { s with
    storedAgents := if 0 < agentsData.length then some agentsData else s.storedAgents,
    storedTasks := if 0 < tasksData.length then some tasksData else s.storedTasks }

/-- entities.Agent.delete: remove the id from the map, then save. -/
def deleteAgent (s : ClientState) (aid : Str) : ClientState :=
  saveToStorage { s with agents := s.agents.filter (fun p => !(p.1 == aid)) }

/-- entities.Task.delete: remove the id from the map, then save. -/
def deleteTask (s : ClientState) (tid : Str) : ClientState :=
  saveToStorage { s with tasks := s.tasks.filter (fun p => !(p.1 == tid)) }

/-- Base44Client.loadFromStorage on construction: every stored record
with an id is set into the fresh map. -/
def loadFromStorage (storedAgents : Option (List AgentR)) (storedTasks : Option (List TaskR)) :
    ClientState :=
  { agents := (storedAgents.getD []).foldl (fun m a => setEntry m a.id a) [],
    tasks := (storedTasks.getD []).foldl (fun m t => setEntry m t.id t) [],
    storedAgents := storedAgents,
    storedTasks := storedTasks }

/-! ## Concrete inputs used by the theorems -/

/-- First data line of the Hello scenario, carrying the delta "Hel". -/
def helloLine1 : Str :=
  str "data: \x7b\"choices\":[\x7b\"delta\":\x7b\"content\":\"Hel\"\x7d\x7d]\x7d\n"

/-- Second data line of the Hello scenario, carrying the delta "lo". -/
def helloLine2 : Str :=
  str "data: \x7b\"choices\":[\x7b\"delta\":\x7b\"content\":\"lo\"\x7d\x7d]\x7d\n"

/-- The termination sentinel line. -/
def doneLine : Str := str "data: [DONE]\n"

/-- The Hello scenario stream, one line per read. -/
def helloScenario : List Str := [helloLine1, helloLine2, doneLine]

/-- First half of a data frame split across two reads. -/
def frameChunkA : Str :=
  str "data: \x7b\"choices\":[\x7b\"delta\":\x7b\"content\":\"Hel"

/-- Second half of the split data frame. -/
def frameChunkB : Str := str "lo\"\x7d\x7d]\x7d\n"

/-- A malformed data line whose payload fails to parse. -/
def malformedLine : Str := str "data: \x7boops"

/-- A sample event for the listener theorems. -/
def sampleEvent : StreamEvent :=
  { id := 0, etype := EventType.output, content := [], timestamp := 0,
    agentId := none, taskId := none }

/-- A subscribed listener that throws when notified. -/
def throwingListener : Nat × (StreamEvent → Except Str Unit) :=
  (0, fun _ => Except.error (str "listener boom"))

/-- A subscribed listener that returns normally. -/
def benignListener : Nat × (StreamEvent → Except Str Unit) :=
  (1, fun _ => Except.ok ())

/-- A successful HTTP response with an empty body stream. -/
def okResponse : HttpResponse :=
  { status := 200, statusLine := str "OK", errorMessage := none, body := some [] }

/-- A well-formed credential: the required prefix and 40 characters. -/
def goodKey : Str := str "gsk_aaaaaaaaaaaaaaaaaaaaaaaaaaaaaaaaaaaa"

/-- 101 distinct events, one more than the history capacity. -/
def manyEvents : List StreamEvent :=
  (List.range 101).map (fun i =>
    { id := i, etype := EventType.output, content := [], timestamp := i,
      agentId := none, taskId := none })

/-- A parent task that is still in progress. -/
def demoParent : TaskR :=
  { id := str "p1", title := str "Parent", description := str "parent work",
    status := TaskStatus.in_progress, result := str "partial",
    agent_id := str "ag", parent_task_id := none }

/-- A finished parent task. -/
def demoParentDone : TaskR :=
  { demoParent with status := TaskStatus.done, result := str "parent output" }

/-- A child task chained to the parent. -/
def demoChild : TaskR :=
  { id := str "c1", title := str "Child", description := str "child work",
    status := TaskStatus.todo, result := [],
    agent_id := str "ag", parent_task_id := some (str "p1") }

/-- An agent record for the storage theorems. -/
def demoAgent : AgentR :=
  { id := str "a1", name := str "Manager", role := str "manager",
    system_prompt := str "be helpful", model := str "llama-3.3-70b-versatile" }

/-- A store holding exactly one agent and one task, both persisted. -/
def demoStore : ClientState :=
  { agents := [(demoAgent.id, demoAgent)],
    tasks := [(demoParent.id, demoParent)],
    storedAgents := some [demoAgent],
    storedTasks := some [demoParent] }

/-- Three queued units; the middle one fails. -/
def demoUnits : List QUnit :=
  [ { uid := 10, dur := 5, body := UnitResult.ok (str "one") },
    { uid := 11, dur := 7, body := UnitResult.err GroqError.rateLimited },
    { uid := 12, dur := 3, body := UnitResult.ok (str "three") } ]

/-! ## Theorems -/

/-- Once the terminal frame has been seen, the remaining chunks of the
stream are never processed. -/
theorem foldl_processChunk_finished (cs : List Str) (st : DecodeState)
    (h : st.finished = true) : cs.foldl processChunk st = st := by
  induction cs with
  | nil => rfl
  | cons c cs ih => simp [List.foldl_cons, processChunk, h, ih]

/-- C1: the source decoder keeps no pending buffer across reads, so a
data frame split across two consecutive reads is lost: the split stream
accumulates nothing while the unsplit stream accumulates "Hello".  The
line-buffered algorithm the specification describes accumulates "Hello"
on both, as the claim requires. -/
theorem split_frame_divergence :
    decodeResult [frameChunkA, frameChunkB] = [] ∧
    decodeResult [frameChunkA ++ frameChunkB] = str "Hello" ∧
    bufDecodeResult [frameChunkA, frameChunkB] = str "Hello" ∧
    bufDecodeResult [frameChunkA ++ frameChunkB] = str "Hello" :=
  ⟨rfl, rfl, rfl, rfl⟩

/-- C7: the three-line scenario accumulates "Hello", fires onThinking
with null exactly once (on the first non-empty delta), and any chunks
after the termination sentinel leave the decoder state untouched. -/
theorem decode_hello_scenario :
    decodeResult helloScenario = str "Hello" ∧
    (processStream helloScenario).thinkingCalls = [none] ∧
    ∀ rest : List Str, processStream (helloScenario ++ rest) = processStream helloScenario := by
  refine ⟨rfl, rfl, fun rest => ?_⟩
  have h : (processStream helloScenario).finished = true := rfl
  unfold processStream
  rw [List.foldl_append]
  exact foldl_processChunk_finished rest _ h

/-- Splitting on a separator that does not occur yields the whole
string as the single part. -/
theorem splitOnChar_eq_single (sep : Char) (l : Str) (h : sep ∉ l) :
    splitOnChar sep l = [l] := by
  induction l with
  | nil => rfl
  | cons c cs ih =>
    have hc : ¬ c = sep := fun e => h (e ▸ List.mem_cons_self c cs)
    have hcs : sep ∉ cs := fun m => h (List.mem_cons_of_mem c m)
    simp [splitOnChar, ih hcs, hc]

/-- A line carrying the data prefix does not trim to the empty string. -/
theorem trim_not_empty_of_data (m : Str) (h : (str "data: ").isPrefixOf m = true) :
    (trim m).isEmpty = false := by
  have hp : str "data: " <+: m := by
    exact List.isPrefixOf_iff_prefix.mp h
  obtain ⟨t, ht⟩ := hp
  subst ht
  unfold trim
  have h1 : List.dropWhile isWS (str "data: " ++ t) = 'd' :: (str "ata: " ++ t) := by
    simp [str, List.dropWhile_cons, isWS]
  rw [h1]
  rw [Bool.eq_false_iff]
  intro htrue
  rw [List.isEmpty_iff, List.reverse_eq_nil_iff, List.dropWhile_eq_nil_iff] at htrue
  have hd := htrue 'd' (by simp)
  simp [isWS] at hd

/-- A malformed data line (prefix present, payload unparsable, not the
sentinel) leaves the decoder state unchanged. -/
theorem processChunk_skip_malformed (st : DecodeState) (m : Str)
    (hpre : (str "data: ").isPrefixOf m = true)
    (hdone : m ≠ str "data: [DONE]")
    (hparse : jsonParse (m.drop 6) = none)
    (hnl : '\n' ∉ m) :
    processChunk st m = st := by
  by_cases hf : st.finished = true
  · simp [processChunk, hf]
  · have hfb : st.finished = false := by simpa using hf
    simp only [processChunk, hfb, Bool.false_eq_true, if_false]
    rw [splitOnChar_eq_single '\n' m hnl]
    have htr : (trim m).isEmpty = false := trim_not_empty_of_data m hpre
    simp only [List.filter, htr, Bool.not_false, List.foldl_cons, List.foldl_nil]
    unfold processLine
    rw [hfb]
    simp only [Bool.false_eq_true, if_false, if_neg hdone, hpre, if_true, hparse]

/-- C8: a stream with one malformed data line interleaved accumulates
exactly the same text as the same stream with the malformed line
removed; the malformed frame never aborts the stream. -/
theorem decoder_skips_malformed_line (pre post : List Str) (m : Str)
    (hpre : (str "data: ").isPrefixOf m = true)
    (hdone : m ≠ str "data: [DONE]")
    (hparse : jsonParse (m.drop 6) = none)
    (hnl : '\n' ∉ m) :
    decodeResult (pre ++ m :: post) = decodeResult (pre ++ post) := by
  unfold decodeResult processStream
  rw [List.foldl_append, List.foldl_append, List.foldl_cons,
      processChunk_skip_malformed _ _ hpre hdone hparse hnl]

/-- Witness for C8 at a concrete stream around the malformed line. -/
theorem decoder_skips_malformed_line_witness :
    (str "data: ").isPrefixOf malformedLine = true ∧
    malformedLine ≠ str "data: [DONE]" ∧
    jsonParse (malformedLine.drop 6) = none ∧
    '\n' ∉ malformedLine ∧
    decodeResult ([helloLine1] ++ malformedLine :: [helloLine2]) =
      decodeResult ([helloLine1] ++ [helloLine2]) :=
  ⟨rfl, by decide, rfl, by decide,
    decoder_skips_malformed_line [helloLine1] [helloLine2] malformedLine rfl (by decide) rfl (by decide)⟩

/-- C2 counterexample: with a throwing listener subscribed ahead of a
well-behaved one, emit notifies only the first listener; the second
currently subscribed listener is never notified of the event, and the
exception escapes emit. -/
theorem emit_throw_skips_later_listener :
    (notifyAll sampleEvent [throwingListener, benignListener]).1 = [0] ∧
    1 ∉ (notifyAll sampleEvent [throwingListener, benignListener]).1 ∧
    (notifyAll sampleEvent [throwingListener, benignListener]).2 = some (str "listener boom") :=
  ⟨rfl, by decide, rfl⟩

/-- C2 amended: listeners subscribed before the throwing one are
notified in subscription order, the throwing listener is invoked, the
exception propagates out of emit, and the listeners after it are not
notified. -/
theorem notify_stops_at_first_throw (e : StreamEvent)
    (pre : List (Nat × (StreamEvent → Except Str Unit)))
    (b : Nat) (f : StreamEvent → Except Str Unit) (msg : Str)
    (post : List (Nat × (StreamEvent → Except Str Unit)))
    (hok : ∀ p ∈ pre, p.2 e = Except.ok ())
    (hthrow : f e = Except.error msg) :
    notifyAll e (pre ++ (b, f) :: post) = (pre.map Prod.fst ++ [b], some msg) := by
  induction pre with
  | nil => simp [notifyAll, hthrow]
  | cons p ps ih =>
    obtain ⟨i, g⟩ := p
    have hg : g e = Except.ok () := hok (i, g) (by simp)
    have hps : ∀ q ∈ ps, q.2 e = Except.ok () := fun q hq => hok q (by simp [hq])
    simp only [List.cons_append, notifyAll, hg, List.append_eq, ih hps, List.map_cons]

/-- Witness for C2's amended statement at concrete listeners. -/
theorem notify_stops_at_first_throw_witness :
    (∀ p ∈ [benignListener], p.2 sampleEvent = Except.ok ()) ∧
    throwingListener.2 sampleEvent = Except.error (str "listener boom") ∧
    notifyAll sampleEvent ([benignListener] ++ (0, throwingListener.2) :: [benignListener]) =
      ([benignListener].map Prod.fst ++ [0], some (str "listener boom")) :=
  ⟨fun p hp => by rw [List.mem_singleton.mp hp]; rfl, rfl,
    notify_stops_at_first_throw sampleEvent [benignListener] 0 throwingListener.2
      (str "listener boom") [benignListener]
      (fun p hp => by rw [List.mem_singleton.mp hp]; rfl) rfl⟩

/-- C3 counterexample: a malformed credential is rejected with the
invalid-format error and causes zero network calls, but the submission
still pushes its closure onto the request queue — a queue slot is
consumed, so the validation does not happen before queuing. -/
theorem inference_invalid_key_consumes_slot :
    (inference okResponse (str "bad")).result = Except.error GroqError.invalidKeyFormat ∧
    (inference okResponse (str "bad")).netCalls = 0 ∧
    (inference okResponse (str "bad")).unitsEnqueued = 1 ∧
    ¬ (inference okResponse (str "bad")).unitsEnqueued = 0 :=
  ⟨rfl, rfl, rfl, by decide⟩

/-- C3 amended: for every credential that does not start with the
required prefix or is shorter than 40 characters (and is not blank),
the inference promise rejects with the invalid-credential error and no
network call is performed, but the closure is enqueued all the same and
the validation runs only when the queue dispatches it. -/
theorem invalid_key_rejected_inside_queue (resp : HttpResponse) (apiKey : Str)
    (hne : trim apiKey ≠ [])
    (hbad : (str "gsk_").isPrefixOf apiKey = false ∨ apiKey.length < 40) :
    (inference resp apiKey).result = Except.error GroqError.invalidKeyFormat ∧
    (inference resp apiKey).netCalls = 0 ∧
    (inference resp apiKey).unitsEnqueued = 1 := by
  refine ⟨?_, ?_, ?_⟩ <;>
    simp [inference, executeRequest, validateApiKey, if_neg hne, if_pos hbad]

/-- Witness for C3's amended statement at a concrete malformed key. -/
theorem invalid_key_rejected_inside_queue_witness :
    trim (str "bad") ≠ [] ∧
    ((str "gsk_").isPrefixOf (str "bad") = false ∨ (str "bad").length < 40) ∧
    (inference okResponse (str "bad")).result = Except.error GroqError.invalidKeyFormat ∧
    (inference okResponse (str "bad")).netCalls = 0 ∧
    (inference okResponse (str "bad")).unitsEnqueued = 1 :=
  ⟨by decide, by decide,
    invalid_key_rejected_inside_queue okResponse (str "bad") (by decide) (by decide)⟩

/-- One step of the drain loop for a unit submitted through inference. -/
theorem drainUnits_cons (now last : Nat) (u : QUnit) (us : List QUnit) :
    drainUnits now last (u :: us) =
      { uid := u.uid,
        dispatchAt := if now - last < RATE_LIMIT_DELAY then last + RATE_LIMIT_DELAY else now,
        completeAt := (if now - last < RATE_LIMIT_DELAY then last + RATE_LIMIT_DELAY else now) + u.dur,
        outcome := u.body } ::
      drainUnits ((if now - last < RATE_LIMIT_DELAY then last + RATE_LIMIT_DELAY else now) + u.dur)
        ((if now - last < RATE_LIMIT_DELAY then last + RATE_LIMIT_DELAY else now) + u.dur) us := rfl

/-- Right after a completion at time t, the next dispatch happens
exactly at t plus the configured delay. -/
theorem drainUnits_head_cons (t : Nat) (v : QUnit) (vs : List QUnit) :
    drainUnits t t (v :: vs) =
      { uid := v.uid, dispatchAt := t + RATE_LIMIT_DELAY,
        completeAt := t + RATE_LIMIT_DELAY + v.dur, outcome := v.body } ::
      drainUnits (t + RATE_LIMIT_DELAY + v.dur) (t + RATE_LIMIT_DELAY + v.dur) vs := by
  rw [drainUnits_cons]
  simp [RATE_LIMIT_DELAY, Nat.sub_self]

/-- The drain loop dispatches the units in submission order. -/
theorem drainUnits_map_uid (now last : Nat) (us : List QUnit) :
    (drainUnits now last us).map DispatchRec.uid = us.map QUnit.uid := by
  induction us generalizing now last with
  | nil => rfl
  | cons u us ih => rw [drainUnits_cons, List.map_cons, List.map_cons, ih]

/-- Every dispatch completes no earlier than it begins. -/
theorem drainUnits_dispatch_le (now last : Nat) (us : List QUnit) :
    ∀ r ∈ drainUnits now last us, r.dispatchAt ≤ r.completeAt := by
  induction us generalizing now last with
  | nil =>
    intro r hr
    have h0 : drainUnits now last [] = [] := rfl
    rw [h0] at hr
    cases hr
  | cons u us ih =>
    intro r hr
    rw [drainUnits_cons] at hr
    rcases List.mem_cons.mp hr with h | h
    · subst h; exact Nat.le_add_right _ _
    · exact ih _ _ r h

/-- Consecutive dispatches of the drain loop are properly spaced. -/
theorem drainUnits_properlySpaced (now last : Nat) (us : List QUnit) :
    properlySpaced (drainUnits now last us) := by
  induction us generalizing now last with
  | nil => exact trivial
  | cons u us ih =>
    rw [drainUnits_cons]
    cases us with
    | nil => exact trivial
    | cons v vs =>
      rw [drainUnits_head_cons]
      refine ⟨⟨Nat.le_add_right _ _, Nat.le_refl _⟩, ?_⟩
      rw [← drainUnits_head_cons]
      exact ih _ _

/-- The closures inference pushes never throw, so the drain loop never
stalls. -/
theorem drainEntries_wrapped_no_stall (now last : Nat) (us : List QUnit) :
    (drainEntries now last (us.map entryOf)).2 = false := by
  induction us generalizing now last with
  | nil => rfl
  | cons u us ih => simp [drainEntries, entryOf, ih]

/-- Every submitted unit is dispatched. -/
theorem drainUnits_length (now last : Nat) (us : List QUnit) :
    (drainUnits now last us).length = us.length := by
  induction us generalizing now last with
  | nil => rfl
  | cons u us ih => rw [drainUnits_cons, List.length_cons, List.length_cons, ih]

/-- Each unit's promise settles with that unit's own outcome. -/
theorem drainUnits_map_outcome (now last : Nat) (us : List QUnit) :
    (drainUnits now last us).map DispatchRec.outcome = us.map QUnit.body := by
  induction us generalizing now last with
  | nil => rfl
  | cons u us ih => rw [drainUnits_cons, List.map_cons, List.map_cons, ih]

/-- C4: units are dispatched in submission order, each dispatch
completes before the next begins, and at least RATE_LIMIT_DELAY
elapses between the completion of one dispatch and the start of the
next. -/
theorem serializer_fifo_single_flight (now last : Nat) (us : List QUnit) :
    (drainUnits now last us).map DispatchRec.uid = us.map QUnit.uid ∧
    (∀ r ∈ drainUnits now last us, r.dispatchAt ≤ r.completeAt) ∧
    properlySpaced (drainUnits now last us) :=
  ⟨drainUnits_map_uid now last us, drainUnits_dispatch_le now last us,
    drainUnits_properlySpaced now last us⟩

/-- C5: the drain loop never stalls on the closures inference pushes,
every submitted unit is dispatched, and each unit's promise settles
with that unit's own outcome, unaffected by any other unit's failure. -/
theorem serializer_unit_failure_isolated (now last : Nat) (us : List QUnit) :
    (drainEntries now last (us.map entryOf)).2 = false ∧
    (drainUnits now last us).length = us.length ∧
    (drainUnits now last us).map DispatchRec.outcome = us.map QUnit.body :=
  ⟨drainEntries_wrapped_no_stall now last us, drainUnits_length now last us,
    drainUnits_map_outcome now last us⟩

/-- Keeping the last n elements before appending, then keeping the last
n of the result, is the same as keeping the last n of the full
append. -/
theorem drop_lastN_append {α : Type} (n : Nat) (x y : List α) :
    (x.drop (x.length - n) ++ y).drop ((x.drop (x.length - n) ++ y).length - n) =
      (x ++ y).drop ((x ++ y).length - n) := by
  rw [List.drop_append_eq_append_drop, List.drop_append_eq_append_drop, List.drop_drop]
  congr 1
  · congr 1
    simp only [List.length_append, List.length_drop]
    omega
  · congr 1
    simp only [List.length_append, List.length_drop]
    omega

/-- One emit keeps exactly the most recent maxEvents entries of the
extended history. -/
theorem pushEvent_eq (l : List StreamEvent) (e : StreamEvent) :
    pushEvent { events := l } e =
      { events := (l ++ [e]).drop ((l ++ [e]).length - maxEvents) } := by
  show ({ events := if maxEvents < (l ++ [e]).length then
      List.drop ((l ++ [e]).length - maxEvents) (l ++ [e]) else l ++ [e] } : BusState) = _
  by_cases h : maxEvents < (l ++ [e]).length
  · rw [if_pos h]
  · rw [if_neg h, Nat.sub_eq_zero_of_le (Nat.le_of_not_lt h), List.drop_zero]

/-- Folding emit over a batch of events keeps exactly the most recent
maxEvents entries of everything published. -/
theorem foldl_pushEvent_lastN (es : List StreamEvent) :
    ∀ x : List StreamEvent,
      es.foldl pushEvent { events := x.drop (x.length - maxEvents) } =
        { events := (x ++ es).drop ((x ++ es).length - maxEvents) } := by
  induction es with
  | nil => intro x; simp
  | cons e es ih =>
    intro x
    rw [List.foldl_cons, pushEvent_eq, drop_lastN_append, ih (x ++ [e])]
    simp [List.append_assoc]

/-- C6: after publishing more than maxEvents events, the retrievable
history is exactly the most recent maxEvents events, oldest first. -/
theorem event_history_bounded (es : List StreamEvent) (h : maxEvents < es.length) :
    getEvents (es.foldl pushEvent { events := [] }) = es.drop (es.length - maxEvents) ∧
    (getEvents (es.foldl pushEvent { events := [] })).length = maxEvents := by
  have hmain := foldl_pushEvent_lastN es []
  simp only [List.drop_nil, List.nil_append] at hmain
  unfold getEvents
  rw [hmain]
  refine ⟨rfl, ?_⟩
  simp only [List.length_drop]
  omega

/-- Witness for C6 at 101 published events. -/
theorem event_history_bounded_witness :
    maxEvents < manyEvents.length ∧
    (getEvents (manyEvents.foldl pushEvent { events := [] }) =
        manyEvents.drop (manyEvents.length - maxEvents) ∧
      (getEvents (manyEvents.foldl pushEvent { events := [] })).length = maxEvents) :=
  ⟨by decide, event_history_bounded manyEvents (by decide)⟩

/-- C9: a task whose found parent is not done fails the dependency
check before anything reaches the serializer queue, and a task whose
found parent is done gets the parent's result prepended as context to
its prompt content. -/
theorem run_task_dependency_gate (tasks : List TaskR) (task : TaskR) (pid : Str) (parent : TaskR)
    (hpid : task.parent_task_id = some pid)
    (hfind : tasks.find? (fun t => t.id == pid) = some parent) :
    (parent.status ≠ TaskStatus.done →
      handleRunTaskCore tasks task =
        { queuedUnits := 0, userContent := none, depFailure := some parent.title }) ∧
    (parent.status = TaskStatus.done →
      handleRunTaskCore tasks task =
        { queuedUnits := 1,
          userContent := some (contextFromParent parent task.description),
          depFailure := none }) := by
  constructor
  · intro h
    simp [handleRunTaskCore, buildUserContent, hpid, hfind, h]
  · intro h
    simp [handleRunTaskCore, buildUserContent, hpid, hfind, h]

/-- Witness for C9 with an in-progress parent and with a done parent. -/
theorem run_task_dependency_gate_witness :
    demoChild.parent_task_id = some (str "p1") ∧
    [demoParent].find? (fun t => t.id == str "p1") = some demoParent ∧
    demoParent.status ≠ TaskStatus.done ∧
    handleRunTaskCore [demoParent] demoChild =
      { queuedUnits := 0, userContent := none, depFailure := some demoParent.title } ∧
    [demoParentDone].find? (fun t => t.id == str "p1") = some demoParentDone ∧
    handleRunTaskCore [demoParentDone] demoChild =
      { queuedUnits := 1,
        userContent := some (contextFromParent demoParentDone demoChild.description),
        depFailure := none } :=
  ⟨rfl, by decide, by decide,
    (run_task_dependency_gate [demoParent] demoChild (str "p1") demoParent rfl
      (by decide)).1 (by decide),
    by decide,
    (run_task_dependency_gate [demoParentDone] demoChild (str "p1") demoParentDone rfl
      (by decide)).2 rfl⟩

/-- C10: deleting the only remaining agent (or task) empties the
in-memory map but is never written to local storage, so the previously
stored record is still there and reappears when a fresh client loads
from storage. -/
theorem delete_last_record_not_persisted (s : ClientState) (a : AgentR) (t : TaskR)
    (ha : s.agents = [(a.id, a)]) (hsa : s.storedAgents = some [a])
    (ht : s.tasks = [(t.id, t)]) (hst : s.storedTasks = some [t]) :
    (deleteAgent s a.id).agents = [] ∧
    (deleteAgent s a.id).storedAgents = some [a] ∧
    (loadFromStorage (deleteAgent s a.id).storedAgents
        (deleteAgent s a.id).storedTasks).agents = [(a.id, a)] ∧
    (deleteTask s t.id).tasks = [] ∧
    (deleteTask s t.id).storedTasks = some [t] ∧
    (loadFromStorage (deleteTask s t.id).storedAgents
        (deleteTask s t.id).storedTasks).tasks = [(t.id, t)] := by
  have hda : (deleteAgent s a.id).agents = [] := by
    simp [deleteAgent, saveToStorage, ha]
  have hdsa : (deleteAgent s a.id).storedAgents = some [a] := by
    simp [deleteAgent, saveToStorage, ha, hsa]
  have hdst : (deleteAgent s a.id).storedTasks = some [t] := by
    simp [deleteAgent, saveToStorage, ht]
  have htt : (deleteTask s t.id).tasks = [] := by
    simp [deleteTask, saveToStorage, ht]
  have htst : (deleteTask s t.id).storedTasks = some [t] := by
    simp [deleteTask, saveToStorage, ht, hst]
  have htsa : (deleteTask s t.id).storedAgents = some [a] := by
    simp [deleteTask, saveToStorage, ha]
  refine ⟨hda, hdsa, ?_, htt, htst, ?_⟩
  · rw [hdsa, hdst]
    rfl
  · rw [htsa, htst]
    rfl

/-- Witness for C10 at a store holding one agent and one task. -/
theorem delete_last_record_not_persisted_witness :
    demoStore.agents = [(demoAgent.id, demoAgent)] ∧
    demoStore.storedAgents = some [demoAgent] ∧
    demoStore.tasks = [(demoParent.id, demoParent)] ∧
    demoStore.storedTasks = some [demoParent] ∧
    ((deleteAgent demoStore demoAgent.id).agents = [] ∧
      (deleteAgent demoStore demoAgent.id).storedAgents = some [demoAgent] ∧
      (loadFromStorage (deleteAgent demoStore demoAgent.id).storedAgents
          (deleteAgent demoStore demoAgent.id).storedTasks).agents =
        [(demoAgent.id, demoAgent)] ∧
      (deleteTask demoStore demoParent.id).tasks = [] ∧
      (deleteTask demoStore demoParent.id).storedTasks = some [demoParent] ∧
      (loadFromStorage (deleteTask demoStore demoParent.id).storedAgents
          (deleteTask demoStore demoParent.id).storedTasks).tasks =
        [(demoParent.id, demoParent)]) :=
  ⟨rfl, rfl, rfl, rfl,
    delete_last_record_not_persisted demoStore demoAgent demoParent rfl rfl rfl rfl⟩
